import Mathlib

/-!
Verification development for the `ai-cli` command-line client (`main.go`).

The program is embedded shallowly: file contents and process outputs are
modelled as `String` / `List Char`, the external environment (PATH lookup,
subprocess results, environment variables, HTTP responses) as an explicit
`Env` record, and the persistent configuration file as a `World` record.
Every Go function that the claims mention is translated into a Lean
definition of the same name; `fmt.Errorf` error values are represented by
the inductive `Err`, and backend invocations (subprocess spawns, HTTP
requests) are recorded in an explicit effect trace.
-/

/-! ### Go string primitives (`strings.Split`, `strings.TrimSpace`, `strings.Fields`) -/

/-- The Go predicate `unicode.IsSpace`: the Unicode White_Space property. -/
def goIsSpace (c : Char) : Bool :=
  let n := c.toNat
  n == 0x20 || (0x9 ≤ n && n ≤ 0xD) || n == 0x85 || n == 0xA0 || n == 0x1680 ||
  (0x2000 ≤ n && n ≤ 0x200A) || n == 0x2028 || n == 0x2029 ||
  n == 0x202F || n == 0x205F || n == 0x3000

/-- `strings.Split(s, "\n")`: cut the character sequence at every newline.
Always returns one more piece than there are newlines. -/
def splitLines : List Char → List (List Char)
  | [] => [[]]
  | c :: cs =>
    if c = '\n' then [] :: splitLines cs
    else
      match splitLines cs with
      | [] => [[c]]
      | l :: ls => (c :: l) :: ls

/-- `strings.TrimSpace`: drop leading and trailing Unicode whitespace. -/
def goTrim (l : List Char) : List Char :=
  ((l.dropWhile goIsSpace).reverse.dropWhile goIsSpace).reverse

/-- `strings.TrimSpace` at the `String` level. -/
def goTrimStr (s : String) : String :=
  String.mk (goTrim s.data)

/-- Accumulator loop behind `strings.Fields`: `cur` holds the reversed
characters of the word currently being read. -/
def goFieldsAux : List Char → List Char → List (List Char)
  | cur, [] => if cur = [] then [] else [cur.reverse]
  | cur, c :: cs =>
    if goIsSpace c then
      if cur = [] then goFieldsAux [] cs else cur.reverse :: goFieldsAux [] cs
    else goFieldsAux (c :: cur) cs

/-- `strings.Fields`: split around runs of whitespace; no empty fields. -/
def goFields (l : List Char) : List (List Char) :=
  goFieldsAux [] l

/-! ### The `ollama list` output parser (`getInstalledModels`, lines 192-213) -/

/-- The `for i, line := range lines` loop body of `getInstalledModels`,
applied to the lines after the discarded header line: skip lines that are
blank after trimming, otherwise append the first field of the line. -/
def getInstalledModelsLoop : List (List Char) → List (List Char)
  | [] => []
  | line :: rest =>
    if goTrim line = [] then getInstalledModelsLoop rest
    else
      match goFields line with
      | [] => getInstalledModelsLoop rest
      | f :: _ => f :: getInstalledModelsLoop rest

/-- The pure parsing part of `getInstalledModels`: split the captured
output on newlines, skip line index 0 (the header) and blank lines, and
collect the first whitespace-delimited field of every remaining line. -/
def parseInstalledModels (output : String) : List String :=
  match splitLines output.data with
  | [] => []
  | _ :: rest => (getInstalledModelsLoop rest).map String.mk

/-! ### Environment, errors and effects -/

/-- The external environment that one process invocation observes: PATH
resolution of the `ollama` binary, the outcome of running `ollama list`,
the `OPENAI_API_KEY` variable (empty when unset), the outcome of running
`ollama run <model> <prompt>` (captured stdout on success), and the remote
HTTP endpoint (request body to response body, or transport error). -/
structure Env where
  ollamaOnPath : Bool
  ollamaList : Except String String
  openaiKey : String
  ollamaRun : String → String → Except String String
  openaiHttp : String → Except String String

/-- The error values of the program (one per `fmt.Errorf` construction site). -/
inductive Err where
  /-- The error text is: empty prompt -/
  | emptyPrompt
  /-- In `loadConfig`: the config file does not exist. -/
  | configNotFound
  /-- In `loadConfig`: `json.Unmarshal` failed on the file contents. -/
  | configParseError
  /-- The error text is: failed to list models -/
  | listModelsFailed (msg : String)
  /-- The error text is: configured model is not installed. Please run set-model -/
  | modelNotInstalled (model : String)
  /-- The error text is: failed to execute prompt -/
  | execFailed (msg : String)
  /-- The error text is: OPENAI_API_KEY environment variable not set -/
  | missingCredential
  /-- The error text is: failed to send request -/
  | httpError (msg : String)
  /-- The error text is: failed to parse response -/
  | parseResponseFailed
  /-- The error text is: OpenAI API error, followed by the carried message -/
  | remoteAPIError (msg : String)
  /-- The error text is: no response from OpenAI -/
  | emptyResponse
  /-- The error text is: invalid choice -/
  | invalidChoice
  /-- The error text is: no models available -/
  | noModelsAvailable
  /-- The error text is: unknown provider -/
  | unknownProvider (p : String)
  /-- Go runtime panic: slice index out of range (`options[choice-1]`) -/
  | indexOutOfRange
  deriving DecidableEq, Repr

/-- Backend work performed during one execution: a spawned subprocess or
an issued HTTP request. -/
inductive Effect where
  | spawn (cmd : String) (args : List String)
  | httpPost (url : String) (body : String)
  deriving DecidableEq, Repr

/-! ### `getInstalledModels` and `isModelInstalled` -/

/-- `getInstalledModels` (lines 192-213): run `ollama list`; on failure
wrap the error, otherwise parse the captured output. -/
def getInstalledModels (env : Env) : Except Err (List String) :=
  match env.ollamaList with
  | .error e => .error (.listModelsFailed e)
  | .ok output => .ok (parseInstalledModels output)

/-- `isModelInstalled` (lines 396-403): re-query the installed-model list
and test membership with `slices.Contains`. -/
def isModelInstalled (env : Env) (model : String) : Except Err Bool :=
  match getInstalledModels env with
  | .error e => .error e
  | .ok models => .ok (models.contains model)

/-! ### JSON encoding (`encoding/json` marshalling of `Config`) -/

/-- Lowercase hexadecimal digit, as used by the Go JSON encoder. -/
def hexDig (n : Nat) : Char :=
  if n < 10 then Char.ofNat (48 + n) else Char.ofNat (87 + n)

/-- Value of one hexadecimal digit (either case), for `\uXXXX` escapes. -/
def hexDigitVal (c : Char) : Option Nat :=
  let n := c.toNat
  if 48 ≤ n && n ≤ 57 then some (n - 48)
  else if 97 ≤ n && n ≤ 102 then some (n - 87)
  else if 65 ≤ n && n ≤ 70 then some (n - 55)
  else none

/-- Value of a four-digit hexadecimal escape body. -/
def hex4 (a b c d : Char) : Option Nat :=
  match hexDigitVal a, hexDigitVal b, hexDigitVal c, hexDigitVal d with
  | some x, some y, some z, some w => some (((x * 16 + y) * 16 + z) * 16 + w)
  | _, _, _, _ => none

/-- How the Go JSON encoder (with its default HTML escaping) writes one
character inside a string literal: quote, backslash, newline, carriage
return and tab get two-character escapes; other control characters get
`\u00XX`; the HTML-sensitive characters and the line/paragraph separators
get their `\uXXXX` forms; everything else is written as itself. -/
def escChar (c : Char) : List Char :=
  if c = '"' then ['\\', '"']
  else if c = '\\' then ['\\', '\\']
  else if c = '\n' then ['\\', 'n']
  else if c = '\r' then ['\\', 'r']
  else if c = '\t' then ['\\', 't']
  else if c.toNat < 0x20 then ['\\', 'u', '0', '0', hexDig (c.toNat / 16), hexDig (c.toNat % 16)]
  else if c = '<' then ['\\', 'u', '0', '0', '3', 'c']
  else if c = '>' then ['\\', 'u', '0', '0', '3', 'e']
  else if c = '&' then ['\\', 'u', '0', '0', '2', '6']
  else if c.toNat = 0x2028 then ['\\', 'u', '2', '0', '2', '8']
  else if c.toNat = 0x2029 then ['\\', 'u', '2', '0', '2', '9']
  else [c]

/-- JSON string-literal escaping of a whole character sequence. -/
def escapeList : List Char → List Char
  | [] => []
  | c :: cs => escChar c ++ escapeList cs

/-- The `Config` struct: `{model string; provider Provider}` with JSON
tags `model` and `provider`. The Go `Provider` type is a string type, so
it is modelled as `String`. -/
structure Config where
  model : String
  provider : String
  deriving DecidableEq, Repr

/-- The exact output of `json.MarshalIndent(config, "", "  ")` for a
`Config` value: a two-member object, struct field order, one indented
line per member. -/
def marshalConfigChars (c : Config) : List Char :=
  ['{', '\n', ' ', ' ', '"', 'm', 'o', 'd', 'e', 'l', '"', ':', ' ', '"']
    ++ escapeList c.model.data
    ++ ['"', ',', '\n', ' ', ' ', '"', 'p', 'r', 'o', 'v', 'i', 'd', 'e', 'r', '"', ':', ' ', '"']
    ++ escapeList c.provider.data
    ++ ['"', '\n', '}']

/-- Persistent state: the contents of the configuration file at the fixed
per-user path (`~/.config/ai-cli.json`), or `none` when absent. File
contents are modelled as character sequences. -/
structure World where
  configFile : Option (List Char)
  deriving DecidableEq, Repr

/-- `saveConfig` (lines 176-190): create the parent directory and write
the whole marshalled record, replacing any previous contents. Filesystem
failures are environmental and outside the model, so the write succeeds. -/
def saveConfig (_w : World) (config : Config) : World :=
  { configFile := some (marshalConfigChars config) }

/-! ### JSON parsing (`encoding/json` unmarshalling) -/

/-- A parsed JSON document. Numbers keep their raw spelling, which is all
the decoders below ever inspect. -/
inductive Json where
  | null
  | bool (b : Bool)
  | num (raw : List Char)
  | str (s : String)
  | arr (elems : List Json)
  | obj (members : List (String × Json))

/-- A Unicode scalar value from a numeric escape; surrogate halves and
out-of-range values become the replacement character, as in Go. -/
def charOfCode (n : Nat) : Char :=
  if n < 0xD800 || (0xE000 ≤ n && n < 0x110000) then Char.ofNat n
  else Char.ofNat 0xFFFD

/-- The single-character JSON escapes. -/
def unescapeChar (c : Char) : Option Char :=
  if c = '"' then some '"'
  else if c = '\\' then some '\\'
  else if c = '/' then some '/'
  else if c = 'b' then some (Char.ofNat 8)
  else if c = 'f' then some (Char.ofNat 12)
  else if c = 'n' then some '\n'
  else if c = 'r' then some '\r'
  else if c = 't' then some '\t'
  else none

/-- Parse the body of a JSON string literal after its opening quote, up
to and including the closing quote: handles the short escapes, `\uXXXX`
escapes with surrogate-pair combination (unpaired surrogates become the
replacement character, as in Go), and rejects raw control characters.
The fuel argument only funds one step per produced character; callers
pass more fuel than the input length, so it never runs out. -/
def parseStringBody : Nat → List Char → Option (List Char × List Char)
  | 0, _ => none
  | _, [] => none
  | Nat.succ f, c :: rest =>
    if c = '"' then some ([], rest)
    else if c = '\\' then
      match rest with
      | [] => none
      | e :: rest2 =>
        if e = 'u' then
          match rest2 with
          | h1 :: h2 :: h3 :: h4 :: rest3 =>
            match hex4 h1 h2 h3 h4 with
            | none => none
            | some n =>
              if 0xD800 ≤ n && n < 0xDC00 then
                match rest3 with
                | '\\' :: 'u' :: g1 :: g2 :: g3 :: g4 :: rest4 =>
                  match hex4 g1 g2 g3 g4 with
                  | some m =>
                    if 0xDC00 ≤ m && m < 0xE000 then
                      match parseStringBody f rest4 with
                      | none => none
                      | some (cs, r) =>
                        some (charOfCode (0x10000 + (n - 0xD800) * 0x400 + (m - 0xDC00)) :: cs, r)
                    else
                      match parseStringBody f rest3 with
                      | none => none
                      | some (cs, r) => some (charOfCode 0xFFFD :: cs, r)
                  | none =>
                    match parseStringBody f rest3 with
                    | none => none
                    | some (cs, r) => some (charOfCode 0xFFFD :: cs, r)
                | _ =>
                  match parseStringBody f rest3 with
                  | none => none
                  | some (cs, r) => some (charOfCode 0xFFFD :: cs, r)
              else
                match parseStringBody f rest3 with
                | none => none
                | some (cs, r) => some (charOfCode n :: cs, r)
          | _ => none
        else
          match unescapeChar e with
          | none => none
          | some uc =>
            match parseStringBody f rest2 with
            | none => none
            | some (cs, r) => some (uc :: cs, r)
    else if c.toNat < 0x20 then none
    else
      match parseStringBody f rest with
      | none => none
      | some (cs, r) => some (c :: cs, r)

/-- Integer part of a JSON number: `0`, or a nonzero digit followed by
digits. -/
def parseNumInt : List Char → Option (List Char × List Char)
  | [] => none
  | c :: rest =>
    if c = '0' then some (['0'], rest)
    else if c.isDigit then
      some (c :: rest.takeWhile Char.isDigit, rest.dropWhile Char.isDigit)
    else none

/-- Optional fraction part of a JSON number. -/
def parseNumFrac : List Char → Option (List Char × List Char)
  | '.' :: rest =>
    let ds := rest.takeWhile Char.isDigit
    if ds = [] then none else some ('.' :: ds, rest.dropWhile Char.isDigit)
  | l => some ([], l)

/-- Optional exponent part of a JSON number. -/
def parseNumExp : List Char → Option (List Char × List Char)
  | [] => some ([], [])
  | c :: rest =>
    if c = 'e' || c = 'E' then
      let (sgn, rest2) :=
        match rest with
        | s :: r2 => if s = '+' || s = '-' then ([s], r2) else (([] : List Char), rest)
        | [] => ([], rest)
      let ds := rest2.takeWhile Char.isDigit
      if ds = [] then none
      else some (c :: (sgn ++ ds), rest2.dropWhile Char.isDigit)
    else some ([], c :: rest)

/-- A full JSON number: optional minus sign, integer part, optional
fraction and exponent. -/
def parseNumber (l : List Char) : Option (List Char × List Char) :=
  let (sgn, l1) :=
    match l with
    | '-' :: r => (['-'], r)
    | _ => (([] : List Char), l)
  match parseNumInt l1 with
  | none => none
  | some (ip, l2) =>
    match parseNumFrac l2 with
    | none => none
    | some (fp, l3) =>
      match parseNumExp l3 with
      | none => none
      | some (ep, l4) => some (sgn ++ ip ++ fp ++ ep, l4)

/-- JSON insignificant whitespace. -/
def isJsonWs (c : Char) : Bool :=
  c == ' ' || c == '\t' || c == '\n' || c == '\r'

/-- Skip insignificant whitespace. -/
def skipWs (l : List Char) : List Char :=
  l.dropWhile isJsonWs

mutual

/-- Parse one JSON value (object, array, string, literal or number) after
skipping leading whitespace. The fuel argument bounds nesting and member
counts; callers supply more fuel than the input length, so it never runs
out on real input. -/
def parseValue : Nat → List Char → Option (Json × List Char)
  | 0, _ => none
  | Nat.succ f, l =>
    match skipWs l with
    | [] => none
    | c :: r =>
      if c = '{' then
        match skipWs r with
        | [] => none
        | c2 :: r2 =>
          if c2 = '}' then some (.obj [], r2)
          else
            match parseMembers f (c2 :: r2) with
            | none => none
            | some (ms, r3) => some (.obj ms, r3)
      else if c = '[' then
        match skipWs r with
        | [] => none
        | c2 :: r2 =>
          if c2 = ']' then some (.arr [], r2)
          else
            match parseElements f (c2 :: r2) with
            | none => none
            | some (es, r3) => some (.arr es, r3)
      else if c = '"' then
        match parseStringBody (r.length + 1) r with
        | none => none
        | some (cs, r2) => some (.str (String.mk cs), r2)
      else
        match c :: r with
        | 't' :: 'r' :: 'u' :: 'e' :: r2 => some (.bool true, r2)
        | 'f' :: 'a' :: 'l' :: 's' :: 'e' :: r2 => some (.bool false, r2)
        | 'n' :: 'u' :: 'l' :: 'l' :: r2 => some (.null, r2)
        | l2 =>
          match parseNumber l2 with
          | none => none
          | some (raw, r2) => some (.num raw, r2)

/-- Parse the members of a JSON object after its opening brace (first
non-whitespace character already reached), up to and including the
closing brace. -/
def parseMembers : Nat → List Char → Option (List (String × Json) × List Char)
  | 0, _ => none
  | Nat.succ f, l =>
    match l with
    | [] => none
    | c :: r =>
      if c = '"' then
        match parseStringBody (r.length + 1) r with
        | none => none
        | some (kcs, r2) =>
          match skipWs r2 with
          | [] => none
          | c3 :: r3 =>
            if c3 = ':' then
              match parseValue f r3 with
              | none => none
              | some (v, r4) =>
                match skipWs r4 with
                | [] => none
                | c5 :: r5 =>
                  if c5 = ',' then
                    match parseMembers f (skipWs r5) with
                    | none => none
                    | some (ms, r6) => some ((String.mk kcs, v) :: ms, r6)
                  else if c5 = '}' then some ([(String.mk kcs, v)], r5)
                  else none
            else none
      else none

/-- Parse the elements of a JSON array after its opening bracket, up to
and including the closing bracket. -/
def parseElements : Nat → List Char → Option (List Json × List Char)
  | 0, _ => none
  | Nat.succ f, l =>
    match parseValue f l with
    | none => none
    | some (v, r) =>
      match skipWs r with
      | [] => none
      | c :: r2 =>
        if c = ',' then
          match parseElements f r2 with
          | none => none
          | some (es, r3) => some (v :: es, r3)
        else if c = ']' then some ([v], r2)
        else none

end

/-- Parse a whole JSON document: one value, then nothing but whitespace,
as `json.Unmarshal` requires. -/
def parseJsonChars (l : List Char) : Option Json :=
  match parseValue (l.length + 1) l with
  | none => none
  | some (j, rest) => if skipWs rest = [] then some j else none

/-! ### Decoding JSON into the Go struct types -/

/-- ASCII lowercasing of one character. -/
def asciiLowerChar (c : Char) : Char :=
  if 65 ≤ c.toNat && c.toNat ≤ 90 then Char.ofNat (c.toNat + 32) else c

/-- Go object-key matching against a struct field tag: exact match, or a
case-insensitive match (the tags here are ASCII, where the Go fold is
plain ASCII case folding). -/
def jsonNameEq (k tag : String) : Bool :=
  k == tag || String.mk (k.data.map asciiLowerChar) == tag

/-- Decode a JSON value into a Go `string` field holding `cur`: `null`
leaves the field untouched, a string replaces it, anything else is a type
error. -/
def decodeStringField (cur : String) : Json → Option String
  | .null => some cur
  | .str s => some s
  | _ => none

/-- Unmarshal one object member into a `Config` under construction:
unknown keys are ignored. -/
def decodeConfigMember (c : Config) (k : String) (v : Json) : Option Config :=
  if jsonNameEq k "model" then
    match decodeStringField c.model v with
    | none => none
    | some s => some { c with model := s }
  else if jsonNameEq k "provider" then
    match decodeStringField c.provider v with
    | none => none
    | some s => some { c with provider := s }
  else some c

/-- Unmarshal a JSON document into a `Config`: `null` leaves the zero
value, an object is folded member by member (later duplicates win, as in
Go), anything else is a type error. -/
def decodeConfig : Json → Option Config
  | .null => some ⟨"", ""⟩
  | .obj ms => ms.foldlM (fun c kv => decodeConfigMember c kv.1 kv.2) ⟨"", ""⟩
  | _ => none

/-- `json.Unmarshal` of file contents into a `Config`. -/
def unmarshalConfig (l : List Char) : Option Config :=
  match parseJsonChars l with
  | none => none
  | some j => decodeConfig j

/-- `loadConfig` (lines 162-174): read the file at the fixed path, then
unmarshal it. -/
def loadConfig (w : World) : Except Err Config :=
  match w.configFile with
  | none => .error .configNotFound
  | some data =>
    match unmarshalConfig data with
    | none => .error .configParseError
    | some c => .ok c

/-! ### The OpenAI response types and their decoding -/

/-- The `OpenAIMessage` struct: `{role, content string}`. -/
structure OpenAIMessage where
  role : String
  content : String
  deriving DecidableEq, Repr

/-- One element of the `choices` array: `{message OpenAIMessage}`. -/
structure OpenAIChoice where
  message : OpenAIMessage
  deriving DecidableEq, Repr

/-- The error object of an OpenAI response: `{message string}`. -/
structure OpenAIError where
  message : String
  deriving DecidableEq, Repr

/-- The `OpenAIResponse` struct: `{choices []OpenAIChoice; error *OpenAIError}`.
The pointer field is `none` when absent or `null`. -/
structure OpenAIResponse where
  choices : List OpenAIChoice
  error : Option OpenAIError
  deriving DecidableEq, Repr

/-- Unmarshal a JSON value into an `OpenAIMessage` holding `m`. -/
def decodeOpenAIMessage (m : OpenAIMessage) : Json → Option OpenAIMessage
  | .null => some m
  | .obj ms =>
    ms.foldlM
      (fun acc kv =>
        if jsonNameEq kv.1 "role" then
          match decodeStringField acc.role kv.2 with
          | none => none
          | some s => some { acc with role := s }
        else if jsonNameEq kv.1 "content" then
          match decodeStringField acc.content kv.2 with
          | none => none
          | some s => some { acc with content := s }
        else some acc)
      m
  | _ => none

/-- Unmarshal a JSON value into an `OpenAIChoice` holding `c`. -/
def decodeOpenAIChoice (c : OpenAIChoice) : Json → Option OpenAIChoice
  | .null => some c
  | .obj ms =>
    ms.foldlM
      (fun acc kv =>
        if jsonNameEq kv.1 "message" then
          match decodeOpenAIMessage acc.message kv.2 with
          | none => none
          | some msg => some { acc with message := msg }
        else some acc)
      c
  | _ => none

/-- Unmarshal a JSON value into an `OpenAIError` holding `e`. -/
def decodeOpenAIError (e : OpenAIError) : Json → Option OpenAIError
  | .null => some e
  | .obj ms =>
    ms.foldlM
      (fun acc kv =>
        if jsonNameEq kv.1 "message" then
          match decodeStringField acc.message kv.2 with
          | none => none
          | some s => some { acc with message := s }
        else some acc)
      e
  | _ => none

/-- Unmarshal a JSON document into an `OpenAIResponse`: a `null` choices
member keeps the nil slice, an array decodes each element into a zero
choice; a `null` error member makes the pointer nil, an object decodes
into the (possibly fresh) pointed-to struct. -/
def decodeOpenAIResponse : Json → Option OpenAIResponse
  | .null => some ⟨[], none⟩
  | .obj ms =>
    ms.foldlM
      (fun r kv =>
        if jsonNameEq kv.1 "choices" then
          match kv.2 with
          | .null => some r
          | .arr es =>
            match es.mapM (decodeOpenAIChoice ⟨⟨"", ""⟩⟩) with
            | none => none
            | some cs => some { r with choices := cs }
          | _ => none
        else if jsonNameEq kv.1 "error" then
          match kv.2 with
          | .null => some { r with error := none }
          | .obj _ =>
            match decodeOpenAIError (r.error.getD ⟨""⟩) kv.2 with
            | none => none
            | some e => some { r with error := some e }
          | _ => none
        else some r)
      ⟨[], none⟩
  | _ => none

/-- `json.Unmarshal` of a response body into an `OpenAIResponse`. -/
def unmarshalOpenAIResponse (body : String) : Option OpenAIResponse :=
  match parseJsonChars body.data with
  | none => none
  | some j => decodeOpenAIResponse j

/-! ### Provider discovery (`isOllamaInstalled`, `hasOpenAIToken`,
`getOpenAIModels`, `getAllAvailableModels`) -/

/-- The provider name constant `Ollama`. -/
def Ollama : String := "ollama"

/-- The provider name constant `OpenAI`. -/
def OpenAI : String := "openai"

/-- `isOllamaInstalled` (lines 143-146): `exec.LookPath("ollama")`
succeeds. -/
def isOllamaInstalled (env : Env) : Bool :=
  env.ollamaOnPath

/-- `hasOpenAIToken` (lines 148-150): `OPENAI_API_KEY` is non-empty. -/
def hasOpenAIToken (env : Env) : Bool :=
  env.openaiKey != ""

/-- `getOpenAIModels` (lines 215-221): the fixed compiled-in catalog. -/
def getOpenAIModels : List String :=
  ["gpt-5-nano", "gpt-5-mini", "gpt-5.2"]

/-- `getAllAvailableModels` (lines 223-238): the ollama entry is added
only when the binary is on the path, listing succeeded (a listing error
is silently dropped) and the list is non-empty; the openai entry is added
whenever the key is set. The Go map holds at most these two fixed keys,
so it is modelled as an association list in insertion order. The function
always returns a nil error. -/
def getAllAvailableModels (env : Env) : Except Err (List (String × List String)) :=
  let ollamaPart :=
    if isOllamaInstalled env then
      match getInstalledModels env with
      | .ok ollamaModels =>
        if ollamaModels.length > 0 then [("ollama", ollamaModels)] else []
      | .error _ => []
    else []
  let openaiPart := if hasOpenAIToken env then [("openai", getOpenAIModels)] else []
  .ok (ollamaPart ++ openaiPart)

/-- The `ModelOption` record built by the selection commands. -/
structure ModelOption where
  provider : String
  model : String
  deriving DecidableEq, Repr

/-- The option-list construction shared verbatim by `initCommand`
(lines 254-270) and `setModelCommand` (lines 317-332): ollama models
first, in listing order, then the openai catalog. -/
def buildOptions (available : List (String × List String)) : List ModelOption :=
  (match available.lookup "ollama" with
   | some models => models.map (fun m => ⟨Ollama, m⟩)
   | none => []) ++
  (match available.lookup "openai" with
   | some models => models.map (fun m => ⟨OpenAI, m⟩)
   | none => [])

/-! ### Menu input scanning -/

/-- Decimal value of a digit sequence. -/
def digitsVal (l : List Char) : Nat :=
  l.foldl (fun a c => a * 10 + (c.toNat - 48)) 0

/-- The effect of `fmt.Sscanf(input, "%d", &choice)` on `choice` (the
returned error is ignored by the program): an optional sign followed by
at least one leading decimal digit yields that number, anything else
leaves `choice` at its zero value. Trailing non-digit characters are not
consumed and not an obstacle. A numeral overflowing int64 makes Go leave
`choice` at 0 instead of the huge value; both lie outside every menu
range `1..len(options)`, so the range check below cannot tell them
apart, and the mathematical value is used here. -/
def sscanfInt (s : String) : Int :=
  let signAndRest : Int × List Char :=
    match s.data with
    | '-' :: cs => (-1, cs)
    | '+' :: cs => (1, cs)
    | cs => (1, cs)
  let ds := signAndRest.2.takeWhile Char.isDigit
  if ds = [] then 0 else signAndRest.1 * (digitsVal ds : Int)

/-! ### The selection commands -/

instance {ε α : Type} [DecidableEq ε] [DecidableEq α] : DecidableEq (Except ε α) := fun x y =>
  match x, y with
  | .ok a, .ok b =>
    if h : a = b then isTrue (by rw [h]) else isFalse (by intro hc; cases hc; exact h rfl)
  | .error a, .error b =>
    if h : a = b then isTrue (by rw [h]) else isFalse (by intro hc; cases hc; exact h rfl)
  | .ok _, .error _ => isFalse (by intro hc; cases hc)
  | .error _, .ok _ => isFalse (by intro hc; cases hc)

/-- The outcome of an interactive command: its returned error value, the
world after it, and the lines it printed. -/
structure CmdOut where
  res : Except Err Unit
  world : World
  printed : List String
  deriving DecidableEq, Repr

/-- One numbered menu line, `i. [provider] model`. -/
def menuLine (i : Nat) (opt : ModelOption) : String :=
  let n := i + 1
  let p := opt.provider
  let m := opt.model
  s!"{n}. [{p}] {m}"

/-- The numbered menu for an option list. -/
def menuLines (options : List ModelOption) : List String :=
  options.enum.map (fun x => menuLine x.1 x.2)

/-- The guidance printed when discovery found nothing. -/
def noModelsGuidance : List String :=
  ["No models available.",
   "Please either:",
   "  1. Install ollama and pull a model (e.g., \x27ollama pull llama3.2\x27)",
   "  2. Set OPENAI_API_KEY environment variable"]

/-- `initCommand` (lines 240-305): discover models; with none, print
guidance and return nil; otherwise show the menu and read one trimmed
line. A blank line means choice 1 and skips the range check; any other
line goes through `Sscanf` and the `choice < 1 || choice > len(options)`
check. The selected option is saved as the new configuration. The
`options[choice-1]` indexing is modelled totally, with the out-of-bounds
panic as `Err.indexOutOfRange`. -/
def initCommand (env : Env) (w : World) (input : String) : CmdOut :=
  match getAllAvailableModels env with
  | .error e => ⟨.error e, w, []⟩
  | .ok available =>
    if available.length = 0 then
      ⟨.ok (), w, noModelsGuidance⟩
    else
      let options := buildOptions available
      let n := options.length
      let menu := ("Available models:" :: menuLines options) ++ [s!"Select a model (1-{n}) [1]: "]
      let inputT := goTrimStr input
      if inputT = "" then
        match options[0]? with
        | none => ⟨.error .indexOutOfRange, w, menu⟩
        | some selected =>
          let p := selected.provider
          let m := selected.model
          ⟨.ok (), saveConfig w ⟨selected.model, selected.provider⟩,
            menu ++ [s!"Selected: [{p}] {m}", "Configuration saved successfully!"]⟩
      else
        let choice := sscanfInt inputT
        if choice < 1 ∨ choice > (n : Int) then ⟨.error .invalidChoice, w, menu⟩
        else
          match options[(choice - 1).toNat]? with
          | none => ⟨.error .indexOutOfRange, w, menu⟩
          | some selected =>
            let p := selected.provider
            let m := selected.model
            ⟨.ok (), saveConfig w ⟨selected.model, selected.provider⟩,
              menu ++ [s!"Selected: [{p}] {m}", "Configuration saved successfully!"]⟩

/-- `setModelCommand` (lines 307-361): like `initCommand`, but an empty
discovery is the hard error `noModelsAvailable`, and a blank input line
enjoys no default: every input goes through `Sscanf` and the range
check. -/
def setModelCommand (env : Env) (w : World) (input : String) : CmdOut :=
  match getAllAvailableModels env with
  | .error e => ⟨.error e, w, []⟩
  | .ok available =>
    if available.length = 0 then
      ⟨.error .noModelsAvailable, w, []⟩
    else
      let options := buildOptions available
      let n := options.length
      let menu := ("Available models:" :: menuLines options) ++ [s!"Select a model (1-{n}): "]
      let choice := sscanfInt (goTrimStr input)
      if choice < 1 ∨ choice > (n : Int) then ⟨.error .invalidChoice, w, menu⟩
      else
        match options[(choice - 1).toNat]? with
        | none => ⟨.error .indexOutOfRange, w, menu⟩
        | some selected =>
          let p := selected.provider
          let m := selected.model
          ⟨.ok (), saveConfig w ⟨selected.model, selected.provider⟩,
            menu ++ [s!"Model changed to: [{p}] {m}"]⟩

/-! ### The dispatcher (`executePrompt`, `executeOllama`, `executeOpenAI`) -/

/-- The fixed chat-completion endpoint. -/
def chatCompletionsURL : String :=
  "https://api.openai.com/v1/chat/completions"

/-- The exact output of `json.Marshal` on the request struct
`OpenAIRequest{Model: model, Messages: []OpenAIMessage{{Role: "user",
Content: prompt}}}`. -/
def marshalOpenAIRequest (model prompt : String) : String :=
  String.mk (
    ['{', '"', 'm', 'o', 'd', 'e', 'l', '"', ':', '"'] ++ escapeList model.data ++
    ['"', ',', '"', 'm', 'e', 's', 's', 'a', 'g', 'e', 's', '"', ':', '[',
     '{', '"', 'r', 'o', 'l', 'e', '"', ':', '"', 'u', 's', 'e', 'r', '"', ',',
     '"', 'c', 'o', 'n', 't', 'e', 'n', 't', '"', ':', '"'] ++ escapeList prompt.data ++
    ['"', '}', ']', '}'])

/-- `executeOllama` (lines 437-455): re-check installation via
`isModelInstalled` (which spawns `ollama list`); fail naming the model if
absent; otherwise spawn `ollama run <model> <prompt>` and return its
captured standard output verbatim. The second component records the
spawned subprocesses in order. -/
def executeOllama (env : Env) (model prompt : String) : Except Err String × List Effect :=
  match isModelInstalled env model with
  | .error e => (.error e, [.spawn "ollama" ["list"]])
  | .ok installed =>
    if !installed then
      (.error (.modelNotInstalled model), [.spawn "ollama" ["list"]])
    else
      match env.ollamaRun model prompt with
      | .error e =>
        (.error (.execFailed e), [.spawn "ollama" ["list"], .spawn "ollama" ["run", model, prompt]])
      | .ok output =>
        (.ok output, [.spawn "ollama" ["list"], .spawn "ollama" ["run", model, prompt]])

/-- `executeOpenAI` (lines 457-509): require the key, marshal the
single-message payload, POST it, unmarshal the body; an error object in
the body wins, then an empty choices slice, then the first choice
content. The second component records the HTTP request. -/
def executeOpenAI (env : Env) (model prompt : String) : Except Err String × List Effect :=
  if env.openaiKey = "" then (.error .missingCredential, [])
  else
    let reqBody := marshalOpenAIRequest model prompt
    match env.openaiHttp reqBody with
    | .error e => (.error (.httpError e), [.httpPost chatCompletionsURL reqBody])
    | .ok body =>
      match unmarshalOpenAIResponse body with
      | none => (.error .parseResponseFailed, [.httpPost chatCompletionsURL reqBody])
      | some resp =>
        match resp.error with
        | some eo => (.error (.remoteAPIError eo.message), [.httpPost chatCompletionsURL reqBody])
        | none =>
          match resp.choices with
          | [] => (.error .emptyResponse, [.httpPost chatCompletionsURL reqBody])
          | choice :: _ => (.ok choice.message.content, [.httpPost chatCompletionsURL reqBody])

/-- `executePrompt` (lines 417-435): reject the empty prompt, load the
configuration, and dispatch on its provider string. The second component
is the trace of backend work (subprocess spawns and HTTP requests). -/
def executePrompt (env : Env) (w : World) (prompt : String) : Except Err String × List Effect :=
  if prompt = "" then (.error .emptyPrompt, [])
  else
    match loadConfig w with
    | .error e => (.error e, [])
    | .ok config =>
      if config.provider = "ollama" then executeOllama env config.model prompt
      else if config.provider = "openai" then executeOpenAI env config.model prompt
      else (.error (.unknownProvider config.provider), [])

/-! ### Spec-side descriptions, for refinement comparisons -/

/-- The listing parse as the spec words it: discard the first line as a
header, skip blank lines, and take the first whitespace-delimited token
of each remaining line, in listing order. Stated from the spec, to be
compared with `parseInstalledModels`. -/
def listingFirstTokens (out : String) : List String :=
  (((splitLines out.data).drop 1).filter (fun l => !(goTrim l).isEmpty)).map
    (fun l => String.mk ((goFields l).headD []))

/-- The local-runner models discovery can see: the parsed listing when
the runner is on the path and listing succeeded, nothing otherwise.
Stated from the spec, to be compared with the option list discovery
builds. -/
def discoveredLocalModels (env : Env) : List String :=
  if isOllamaInstalled env then
    match getInstalledModels env with
    | .ok ms => ms
    | .error _ => []
  else []

/-- The remote-API models discovery can see: the fixed catalog when the
key is set, nothing otherwise. Stated from the spec. -/
def discoveredRemoteModels (env : Env) : List String :=
  if hasOpenAIToken env then getOpenAIModels else []

/-- A menu input line that is numeric in the ordinary sense: an optional
sign followed by one or more decimal digits and nothing else. Stated
from the spec (its notion of a non-numeric choice), to be compared with
what the `Sscanf`-based check accepts. -/
def isNumericInput (s : String) : Bool :=
  match s.data with
  | '-' :: cs => !cs.isEmpty && cs.all Char.isDigit
  | '+' :: cs => !cs.isEmpty && cs.all Char.isDigit
  | cs => !cs.isEmpty && cs.all Char.isDigit

/-- The JSON document `marshalConfigChars` spells out. -/
def configJson (c : Config) : Json :=
  .obj [("model", .str c.model), ("provider", .str c.provider)]

/-! ### Concrete environments and worlds for witnesses -/

/-- An empty world: no configuration file. -/
def w0 : World := ⟨none⟩

/-- A listing with two installed models, as in the spec scenario. -/
def twoModelListing : String := "NAME\nllama3.2  4GB\nmistral  3GB\n"

/-- Local runner present with two models; no remote key. -/
def envLocalOnly : Env :=
  { ollamaOnPath := true
    ollamaList := .ok twoModelListing
    openaiKey := ""
    ollamaRun := fun _ _ => .ok "OUT \n"
    openaiHttp := fun _ => .error "offline" }

/-- A world configured for the local runner and its first model. -/
def wLocal : World := saveConfig w0 ⟨"llama3.2", "ollama"⟩

/-- Remote key set, no local runner. -/
def envRemoteOnly : Env :=
  { ollamaOnPath := false
    ollamaList := .error "executable file not found in PATH"
    openaiKey := "sk-test"
    ollamaRun := fun _ _ => .error "not installed"
    openaiHttp := fun _ => .ok "\x7b\"error\":\x7b\"message\":\"boom\"\x7d\x7d" }

/-- Runner resolvable on the path, but `ollama list` fails; no key. -/
def envListingFails : Env :=
  { ollamaOnPath := true
    ollamaList := .error "exit status 1"
    openaiKey := ""
    ollamaRun := fun _ _ => .error "exit status 1"
    openaiHttp := fun _ => .error "offline" }

/-- Runner absent and no key: discovery finds nothing. -/
def envNothing : Env :=
  { ollamaOnPath := false
    ollamaList := .error "executable file not found in PATH"
    openaiKey := ""
    ollamaRun := fun _ _ => .error "not installed"
    openaiHttp := fun _ => .error "offline" }

/-! ### Listing-parse lemmas and claim C2 -/

theorem goFieldsAux_ne_nil (cs : List Char) : ∀ cur : List Char, cur ≠ [] → goFieldsAux cur cs ≠ [] := by
  induction cs with
  | nil => intro cur h; simp [goFieldsAux, h]
  | cons c cs ih =>
    intro cur h
    by_cases hsp : goIsSpace c
    · simp [goFieldsAux, hsp, h]
    · simpa [goFieldsAux, hsp] using ih (c :: cur) (by simp)

theorem goFields_eq_nil_iff (l : List Char) : goFields l = [] ↔ ∀ c ∈ l, goIsSpace c := by
  induction l with
  | nil => simp [goFields, goFieldsAux]
  | cons c cs ih =>
    by_cases hsp : goIsSpace c
    · simpa [goFields, goFieldsAux, hsp] using ih
    · simp only [goFields, goFieldsAux, hsp, if_neg]
      constructor
      · intro h
        exact absurd h (goFieldsAux_ne_nil cs [c] (by simp))
      · intro h
        exact absurd (h c (by simp)) (by simp [hsp])

theorem goTrim_eq_nil_iff (l : List Char) : goTrim l = [] ↔ ∀ c ∈ l, goIsSpace c := by
  unfold goTrim
  rw [List.reverse_eq_nil_iff, List.dropWhile_eq_nil_iff]
  constructor
  · intro h c hc
    rcases List.mem_append.mp ((List.takeWhile_append_dropWhile goIsSpace l ▸ hc) : c ∈ _) with h1 | h2
    · exact List.mem_takeWhile_imp h1
    · exact h c (List.mem_reverse.mpr h2)
  · intro h c hc
    exact h c (List.Sublist.mem (List.mem_reverse.mp hc) (List.dropWhile_sublist goIsSpace))

theorem splitLines_ne_nil (l : List Char) : splitLines l ≠ [] := by
  cases l with
  | nil => simp [splitLines]
  | cons c cs =>
    simp only [splitLines]
    split
    · simp
    · split <;> simp

theorem goFields_ne_nil_of_goTrim {l : List Char} (h : goTrim l ≠ []) : goFields l ≠ [] := by
  intro hf
  exact h ((goTrim_eq_nil_iff l).mpr ((goFields_eq_nil_iff l).mp hf))

theorem getInstalledModelsLoop_eq (rest : List (List Char)) :
    getInstalledModelsLoop rest =
      (rest.filter (fun l => !(goTrim l).isEmpty)).map (fun l => (goFields l).headD []) := by
  induction rest with
  | nil => rfl
  | cons line rs ih =>
    by_cases hb : goTrim line = []
    · simp [getInstalledModelsLoop, hb, List.filter, ih]
    · have hf := goFields_ne_nil_of_goTrim hb
      cases hfe : goFields line with
      | nil => exact absurd hfe hf
      | cons f t =>
        simp [getInstalledModelsLoop, hb, hfe, List.filter, ih, List.isEmpty_eq_false.mpr hb]

/-- Claim C2: `getInstalledModels` discards the first line as a header,
skips blank lines, and returns the first whitespace-delimited token of
each remaining line in listing order; the scenario listing yields
`["llama3.2", "mistral"]`; and `isModelInstalled name` succeeds with
`true` exactly when `name` is among those first tokens. -/
theorem claimC2 :
    (∀ out : String, parseInstalledModels out = listingFirstTokens out) ∧
    parseInstalledModels "NAME\nllama3.2  4GB\nmistral  3GB\n" = ["llama3.2", "mistral"] ∧
    (∀ (env : Env) (name out : String), env.ollamaList = .ok out →
      (isModelInstalled env name = .ok true ↔ name ∈ listingFirstTokens out)) := by
  have hmain : ∀ out : String, parseInstalledModels out = listingFirstTokens out := by
    intro out
    unfold parseInstalledModels listingFirstTokens
    cases hs : splitLines out.data with
    | nil => exact absurd hs (splitLines_ne_nil _)
    | cons x rest =>
      simp [getInstalledModelsLoop_eq, List.map_map, Function.comp]
  refine ⟨hmain, by decide, ?_⟩
  intro env name out h
  rw [isModelInstalled, getInstalledModels, h, ← hmain out]
  simp only [Except.ok.injEq]
  constructor
  · intro hc
    exact List.elem_iff.mp hc
  · intro hm
    exact List.elem_iff.mpr hm

/-- Concrete instantiation of the hypothesis-bearing part of `claimC2`:
with the two-model listing, `isModelInstalled` finds `mistral` and the
spec-side token list contains it. -/
theorem claimC2_witness :
    isModelInstalled envLocalOnly "mistral" = .ok true ↔
      "mistral" ∈ listingFirstTokens twoModelListing :=
  claimC2.2.2 envLocalOnly "mistral" twoModelListing rfl

/-! ### Discovery lemmas and claims C3, C9, C10 -/

/-- Claim C3: discovery returns no provider with an empty model list; the
flattened option list is exactly the local-runner models in listing order
followed by the remote catalog in catalog order; and discovery under an
unchanged environment yields the same result. -/
theorem claimC3 :
    ∀ (env : Env) (avail : List (String × List String)),
      getAllAvailableModels env = .ok avail →
      (∀ p ms, (p, ms) ∈ avail → ms ≠ []) ∧
      buildOptions avail =
        (discoveredLocalModels env).map (fun m => ⟨Ollama, m⟩) ++
        (discoveredRemoteModels env).map (fun m => ⟨OpenAI, m⟩) ∧
      (∀ env2 : Env, env2 = env → getAllAvailableModels env2 = getAllAvailableModels env) := by
  intro env avail h
  have h2 := Except.ok.inj h
  subst h2
  refine ⟨?_, ?_, fun env2 he => by rw [he]⟩
  · intro p ms hm
    rcases List.mem_append.mp hm with hma | hmb
    · by_cases hop : isOllamaInstalled env
      · simp only [hop, if_true] at hma
        cases hl : getInstalledModels env with
        | error e => rw [hl] at hma; simp at hma
        | ok ollamaModels =>
          rw [hl] at hma
          by_cases hlen : ollamaModels.length > 0
          · simp only [hlen, if_true, List.mem_singleton, Prod.mk.injEq] at hma
            rcases hma with ⟨_, hms⟩
            subst hms
            intro hnil
            subst hnil
            simp at hlen
          · simp [hlen] at hma
      · simp [hop] at hma
    · by_cases hk : hasOpenAIToken env
      · simp only [hk, if_true, List.mem_singleton, Prod.mk.injEq] at hmb
        rcases hmb with ⟨_, hms⟩
        subst hms
        simp [getOpenAIModels]
      · simp [hk] at hmb
  · by_cases hop : isOllamaInstalled env
    · cases hl : getInstalledModels env with
      | error e =>
        by_cases hk : hasOpenAIToken env <;>
          simp [hop, hl, hk, buildOptions, List.lookup,
            discoveredLocalModels, discoveredRemoteModels]
      | ok ollamaModels =>
        by_cases hlen : ollamaModels.length > 0
        · by_cases hk : hasOpenAIToken env <;>
            simp [hop, hl, hlen, hk, buildOptions, List.lookup,
              discoveredLocalModels, discoveredRemoteModels]
        · have hnil : ollamaModels = [] := List.length_eq_zero.mp (by omega)
          subst hnil
          by_cases hk : hasOpenAIToken env <;>
            simp [hop, hl, hk, buildOptions, List.lookup,
              discoveredLocalModels, discoveredRemoteModels]
    · by_cases hk : hasOpenAIToken env <;>
        simp [hop, hk, buildOptions, List.lookup,
          discoveredLocalModels, discoveredRemoteModels]

/-- Concrete instantiation of `claimC3`: with the two-model local listing
and no key, the flattened option list is the two local options. -/
theorem claimC3_witness :
    buildOptions [("ollama", ["llama3.2", "mistral"])] =
      (discoveredLocalModels envLocalOnly).map (fun m => ⟨Ollama, m⟩) ++
      (discoveredRemoteModels envLocalOnly).map (fun m => ⟨OpenAI, m⟩) :=
  (claimC3 envLocalOnly [("ollama", ["llama3.2", "mistral"])] (by decide)).2.1

theorem goTrimStr_empty : goTrimStr "" = "" := by decide

/-- Claim C9: when discovery yields nothing, first-run init prints the
guidance lines and returns success without writing, and the explicit
set-model command fails with `noModelsAvailable` without writing. -/
theorem claimC9 :
    ∀ (env : Env) (w : World) (input : String),
      getAllAvailableModels env = .ok [] →
      initCommand env w input = ⟨.ok (), w, noModelsGuidance⟩ ∧
      setModelCommand env w input = ⟨.error .noModelsAvailable, w, []⟩ := by
  intro env w input h
  constructor <;> simp [initCommand, setModelCommand, h]

/-- Concrete instantiation of `claimC9`: no runner, no key. -/
theorem claimC9_witness :
    initCommand envNothing w0 "whatever" = ⟨.ok (), w0, noModelsGuidance⟩ ∧
    setModelCommand envNothing w0 "whatever" = ⟨.error .noModelsAvailable, w0, []⟩ :=
  claimC9 envNothing w0 "whatever" (by decide)

/-- Claim C10: when discovery found anything at all, the flattened option
list is non-empty, so the blank-input default choice 1 of first-run init
(which skips the range check) indexes safely: init succeeds and saves the
first option. -/
theorem claimC10 :
    ∀ (env : Env) (w : World) (avail : List (String × List String)),
      getAllAvailableModels env = .ok avail → avail ≠ [] →
      buildOptions avail ≠ [] ∧
      ∃ selected, (buildOptions avail)[0]? = some selected ∧
        (initCommand env w "").res = .ok () ∧
        (initCommand env w "").world = saveConfig w ⟨selected.model, selected.provider⟩ := by
  intro env w avail h hne
  have hava : avail = _ := (Except.ok.inj h).symm
  have hopts : buildOptions avail ≠ [] := by
    rw [hava] at hne ⊢
    by_cases hop : isOllamaInstalled env
    · cases hl : getInstalledModels env with
      | error e =>
        by_cases hk : hasOpenAIToken env <;>
          simp_all [buildOptions, List.lookup, getOpenAIModels]
      | ok ollamaModels =>
        by_cases hlen : ollamaModels.length > 0
        · have hmsne : ollamaModels ≠ [] := by
            intro hz
            subst hz
            simp at hlen
          by_cases hk : hasOpenAIToken env <;>
            simp_all [buildOptions, List.lookup, getOpenAIModels]
        · by_cases hk : hasOpenAIToken env <;>
            simp_all [buildOptions, List.lookup, getOpenAIModels]
    · by_cases hk : hasOpenAIToken env <;>
        simp_all [buildOptions, List.lookup, getOpenAIModels]
  refine ⟨hopts, ?_⟩
  cases hsel : (buildOptions avail)[0]? with
  | none =>
    exfalso
    rw [List.getElem?_eq_none_iff] at hsel
    exact hopts (List.eq_nil_of_length_eq_zero (by omega))
  | some selected =>
    have hlen0 : ¬(avail.length = 0) := fun hz => hne (List.length_eq_zero.mp hz)
    refine ⟨selected, rfl, ?_, ?_⟩ <;>
      simp [initCommand, h, hlen0, goTrimStr_empty, hsel]

/-- Concrete instantiation of `claimC10`: one provider with the fixed
catalog; blank input selects and saves the first catalog model. -/
theorem claimC10_witness :
    buildOptions [("openai", getOpenAIModels)] ≠ [] ∧
    ∃ selected, (buildOptions [("openai", getOpenAIModels)])[0]? = some selected ∧
      (initCommand envRemoteOnly w0 "").res = .ok () ∧
      (initCommand envRemoteOnly w0 "").world = saveConfig w0 ⟨selected.model, selected.provider⟩ :=
  claimC10 envRemoteOnly w0 [("openai", getOpenAIModels)] (by decide) (by decide)

/-! ### Claim C7: invalid menu choices -/

/-- Claim C7, amended: a menu input whose `Sscanf`-style leading-integer
parse yields a value outside `1..len(options)` (which includes every
input without a leading optionally-signed integer, parsed as 0) makes
both selection workflows fail with `invalidChoice` and leave the stored
configuration unchanged; for first-run init this concerns non-blank
input, blank input taking the default instead. -/
theorem claimC7_amended :
    ∀ (env : Env) (w : World) (input : String) (avail : List (String × List String)),
      getAllAvailableModels env = .ok avail → avail ≠ [] →
      (sscanfInt (goTrimStr input) < 1 ∨
        sscanfInt (goTrimStr input) > ((buildOptions avail).length : Int)) →
      ((goTrimStr input ≠ "" →
          (initCommand env w input).res = .error .invalidChoice ∧
          (initCommand env w input).world = w) ∧
       ((setModelCommand env w input).res = .error .invalidChoice ∧
        (setModelCommand env w input).world = w)) := by
  intro env w input avail h hne hout
  have hlen0 : ¬(avail.length = 0) := fun hz => hne (List.length_eq_zero.mp hz)
  constructor
  · intro hblank
    constructor <;> simp [initCommand, h, hlen0, hblank, hout]
  · constructor <;> simp [setModelCommand, h, hlen0, hout]

/-- Concrete instantiation of `claimC7_amended`: the input `abc` parses
to 0 and is rejected without a write by both workflows. -/
theorem claimC7_amended_witness :
    ((goTrimStr "abc" ≠ "" →
        (initCommand envRemoteOnly w0 "abc").res = .error .invalidChoice ∧
        (initCommand envRemoteOnly w0 "abc").world = w0) ∧
     ((setModelCommand envRemoteOnly w0 "abc").res = .error .invalidChoice ∧
      (setModelCommand envRemoteOnly w0 "abc").world = w0)) :=
  claimC7_amended envRemoteOnly w0 "abc" [("openai", getOpenAIModels)]
    (by decide) (by decide) (Or.inl (by decide))

/-- Counterexample to claim C7 as stated: the input `2abc` is not a
numeral, yet with three menu options the set-model workflow accepts it
as choice 2 (Go `Sscanf` stops at the first non-digit and its error is
ignored) and writes the configuration. -/
theorem claimC7_counterexample :
    isNumericInput "2abc" = false ∧
    (setModelCommand envRemoteOnly w0 "2abc").res ≠ .error .invalidChoice ∧
    (setModelCommand envRemoteOnly w0 "2abc").res = .ok () ∧
    (setModelCommand envRemoteOnly w0 "2abc").world ≠ w0 ∧
    (setModelCommand envRemoteOnly w0 "2abc").world = saveConfig w0 ⟨"gpt-5-mini", "openai"⟩ := by
  decide

/-! ### Claim C4: listing failure during discovery -/

/-- Claim C4, amended: `getInstalledModels` does surface an invocation
failure as a wrapped error distinct from absence, but `getAllAvailableModels`
swallows it: discovery returns a nil error and the local provider simply
contributes no models, exactly as when the runner is not installed. -/
theorem claimC4_amended :
    ∀ (env : Env) (e : String), env.ollamaList = .error e →
      getInstalledModels env = .error (.listModelsFailed e) ∧
      getAllAvailableModels env =
        .ok (if hasOpenAIToken env then [("openai", getOpenAIModels)] else []) := by
  intro env e h
  refine ⟨by simp [getInstalledModels, h], ?_⟩
  by_cases hop : isOllamaInstalled env <;>
    by_cases hk : hasOpenAIToken env <;>
    simp [getAllAvailableModels, getInstalledModels, h, hop, hk]

/-- Concrete instantiation of `claimC4_amended` at a failing listing. -/
theorem claimC4_amended_witness :
    getInstalledModels envListingFails = .error (.listModelsFailed "exit status 1") ∧
    getAllAvailableModels envListingFails =
      .ok (if hasOpenAIToken envListingFails then [("openai", getOpenAIModels)] else []) :=
  claimC4_amended envListingFails "exit status 1" rfl

/-- Counterexample to claim C4 as stated: with the runner resolvable on
the path but `ollama list` failing, discovery does not surface any
error — it returns the same successful empty map as when the runner is
not installed at all. -/
theorem claimC4_counterexample :
    envListingFails.ollamaOnPath = true ∧
    envListingFails.ollamaList = .error "exit status 1" ∧
    getAllAvailableModels envListingFails = .ok [] ∧
    envNothing.ollamaOnPath = false ∧
    getAllAvailableModels envNothing = .ok [] := by
  decide

/-! ### Claim C1: the empty-prompt guard -/

/-- Claim C1, amended: `executePrompt` rejects exactly the empty prompt
string with `emptyPrompt`, before loading the configuration and before
any subprocess or HTTP work (the effect trace is empty). Whitespace-only
non-empty prompts pass this guard; the interactive and piped call sites
trim their input first, but the direct-argument path does not. -/
theorem claimC1_amended :
    ∀ (env : Env) (w : World), executePrompt env w "" = (.error .emptyPrompt, []) := by
  intro env w
  rfl

/-- Counterexample to claim C1 as stated: the whitespace-only prompt
`" "` is not rejected with `emptyPrompt`; with a configured and installed
local model it reaches the backend and spawns two subprocesses. -/
theorem claimC1_counterexample :
    goTrimStr " " = "" ∧
    executePrompt envLocalOnly wLocal " " =
      (.ok "OUT \n", [.spawn "ollama" ["list"], .spawn "ollama" ["run", "llama3.2", " "]]) ∧
    (executePrompt envLocalOnly wLocal " ").1 ≠ .error .emptyPrompt ∧
    (executePrompt envLocalOnly wLocal " ").2 ≠ [] := by
  decide

/-! ### Claim C6: the local-runner execution path -/

/-- Claim C6: with a loaded configuration for the ollama provider,
execution re-checks the listing; a configured model absent from it fails
with `modelNotInstalled` naming the model (after only the listing
spawn), and a present model makes execution return the run subprocess
standard output verbatim. -/
theorem claimC6 :
    ∀ (env : Env) (w : World) (config : Config) (prompt out : String),
      prompt ≠ "" →
      loadConfig w = .ok config →
      config.provider = "ollama" →
      env.ollamaList = .ok out →
      ((config.model ∉ parseInstalledModels out →
          executePrompt env w prompt =
            (.error (.modelNotInstalled config.model), [.spawn "ollama" ["list"]])) ∧
       (config.model ∈ parseInstalledModels out →
          ∀ res, env.ollamaRun config.model prompt = .ok res →
            executePrompt env w prompt =
              (.ok res, [.spawn "ollama" ["list"], .spawn "ollama" ["run", config.model, prompt]]))) := by
  intro env w config prompt out hp hload hprov hlist
  have hstep : executePrompt env w prompt = executeOllama env config.model prompt := by
    simp [executePrompt, hp, hload, hprov]
  constructor
  · intro hnotin
    have hc : (parseInstalledModels out).contains config.model = false := by
      rw [← Bool.not_eq_true]
      intro hcon
      exact hnotin (List.elem_iff.mp hcon)
    rw [hstep]
    simp [executeOllama, isModelInstalled, getInstalledModels, hlist, hc, hnotin]
  · intro hin res hrun
    have hc : (parseInstalledModels out).contains config.model = true := List.elem_iff.mpr hin
    rw [hstep]
    simp [executeOllama, isModelInstalled, getInstalledModels, hlist, hc, hrun, hin]

/-- Concrete instantiation of `claimC6`: the configured installed model
runs and its stdout, trailing whitespace included, is returned. -/
theorem claimC6_witness :
    executePrompt envLocalOnly wLocal "hi" =
      (.ok "OUT \n", [.spawn "ollama" ["list"], .spawn "ollama" ["run", "llama3.2", "hi"]]) :=
  (claimC6 envLocalOnly wLocal ⟨"llama3.2", "ollama"⟩ "hi" twoModelListing
      (by decide) (by decide) rfl rfl).2 (by decide) "OUT \n" rfl

/-! ### Claim C5: the remote-API response contract -/

/-- Claim C5: for a remote execution whose response body parses (and
decodes) as an `OpenAIResponse`: an error object wins and surfaces its
message as `remoteAPIError`; otherwise an empty choices array gives
`emptyResponse`; otherwise the first choice message content is the
result. The spec scenario body yields `remoteAPIError "boom"`. -/
theorem claimC5 :
    (∀ (env : Env) (model prompt body : String) (resp : OpenAIResponse),
      env.openaiKey ≠ "" →
      env.openaiHttp (marshalOpenAIRequest model prompt) = .ok body →
      unmarshalOpenAIResponse body = some resp →
      ((∀ eo, resp.error = some eo →
          (executeOpenAI env model prompt).1 = .error (.remoteAPIError eo.message)) ∧
       (resp.error = none → resp.choices = [] →
          (executeOpenAI env model prompt).1 = .error .emptyResponse) ∧
       (∀ choice rest, resp.error = none → resp.choices = choice :: rest →
          (executeOpenAI env model prompt).1 = .ok choice.message.content))) ∧
    (executeOpenAI envRemoteOnly "gpt-5.2" "hi").1 = .error (.remoteAPIError "boom") := by
  constructor
  · intro env model prompt body resp hkey hhttp hdec
    refine ⟨?_, ?_, ?_⟩
    · intro eo heo
      simp [executeOpenAI, hkey, hhttp, hdec, heo]
    · intro heo hch
      simp [executeOpenAI, hkey, hhttp, hdec, heo, hch]
    · intro choice rest heo hch
      simp [executeOpenAI, hkey, hhttp, hdec, heo, hch]
  · decide

/-- Concrete instantiation of the quantified part of `claimC5` at the
spec scenario body. -/
theorem claimC5_witness :
    (executeOpenAI envRemoteOnly "gpt-5.2" "hi").1 = .error (.remoteAPIError "boom") :=
  (claimC5.1 envRemoteOnly "gpt-5.2" "hi"
      "\x7b\"error\":\x7b\"message\":\"boom\"\x7d\x7d" ⟨[], some ⟨"boom"⟩⟩
      (by decide) (by decide) (by decide)).1 ⟨"boom"⟩ rfl

/-! ### Round-trip lemmas for the JSON string encoding -/

theorem hex00_round : ∀ n, n < 32 → hex4 '0' '0' (hexDig (n / 16)) (hexDig (n % 16)) = some n := by
  decide

theorem parseStringBody_escChar (c : Char) (f : Nat) (tail : List Char) :
    parseStringBody (f + 1) (escChar c ++ tail) =
      Option.map (fun p => (c :: p.1, p.2)) (parseStringBody f tail) := by
  by_cases h1 : c = '"'
  · subst h1
    cases hp : parseStringBody f tail <;>
      simp [escChar, parseStringBody, unescapeChar, hp]
  by_cases h2 : c = '\\'
  · subst h2
    cases hp : parseStringBody f tail <;>
      simp [escChar, parseStringBody, unescapeChar, h1, hp]
  by_cases h3 : c = '\n'
  · subst h3
    cases hp : parseStringBody f tail <;>
      simp [escChar, parseStringBody, unescapeChar, h1, h2, hp]
  by_cases h4 : c = '\r'
  · subst h4
    cases hp : parseStringBody f tail <;>
      simp [escChar, parseStringBody, unescapeChar, h1, h2, h3, hp]
  by_cases h5 : c = '\t'
  · subst h5
    cases hp : parseStringBody f tail <;>
      simp [escChar, parseStringBody, unescapeChar, h1, h2, h3, h4, hp]
  by_cases h6 : c.toNat < 0x20
  · have hhex := hex00_round c.toNat (by omega)
    have hlow : ¬(0xD800 ≤ c.toNat) := by omega
    have hval : c.toNat < 0xD800 := by omega
    cases hp : parseStringBody f tail <;>
      simp [escChar, parseStringBody, h1, h2, h3, h4, h5, h6, hhex, hp,
        charOfCode, hlow, hval, Char.ofNat_toNat]
  by_cases h7 : c = '<'
  · subst h7
    cases hp : parseStringBody f tail <;>
      simp [escChar, parseStringBody, h1, h2, h3, h4, h5, h6,
        show hex4 '0' '0' '3' 'c' = some 60 from by decide,
        show charOfCode 60 = '<' from by decide, hp]
  by_cases h8 : c = '>'
  · subst h8
    cases hp : parseStringBody f tail <;>
      simp [escChar, parseStringBody, h1, h2, h3, h4, h5, h6, h7,
        show hex4 '0' '0' '3' 'e' = some 62 from by decide,
        show charOfCode 62 = '>' from by decide, hp]
  by_cases h9 : c = '&'
  · subst h9
    cases hp : parseStringBody f tail <;>
      simp [escChar, parseStringBody, h1, h2, h3, h4, h5, h6, h7, h8,
        show hex4 '0' '0' '2' '6' = some 38 from by decide,
        show charOfCode 38 = '&' from by decide, hp]
  by_cases h10 : c.toNat = 0x2028
  · have hc : c = Char.ofNat 0x2028 := by rw [← h10, Char.ofNat_toNat]
    subst hc
    cases hp : parseStringBody f tail <;>
      simp [escChar, parseStringBody, h1, h2, h3, h4, h5, h6, h7, h8, h9, h10,
        show hex4 '2' '0' '2' '8' = some 0x2028 from by decide,
        show charOfCode 0x2028 = Char.ofNat 0x2028 from by decide, hp]
  by_cases h11 : c.toNat = 0x2029
  · have hc : c = Char.ofNat 0x2029 := by rw [← h11, Char.ofNat_toNat]
    subst hc
    cases hp : parseStringBody f tail <;>
      simp [escChar, parseStringBody, h1, h2, h3, h4, h5, h6, h7, h8, h9, h10, h11,
        show hex4 '2' '0' '2' '9' = some 0x2029 from by decide,
        show charOfCode 0x2029 = Char.ofNat 0x2029 from by decide, hp]
  · cases hp : parseStringBody f tail <;>
      simp [escChar, parseStringBody, h1, h2, h3, h4, h5, h6, h7, h8, h9, h10, h11, hp]

theorem parseStringBody_escape (s : List Char) :
    ∀ (f : Nat) (rest : List Char),
      parseStringBody (f + s.length + 1) (escapeList s ++ '"' :: rest) = some (s, rest) := by
  induction s with
  | nil =>
    intro f rest
    simp [escapeList, parseStringBody]
  | cons c cs ih =>
    intro f rest
    have harith : f + (c :: cs).length + 1 = (f + cs.length + 1) + 1 := by
      simp [List.length_cons]
      omega
    rw [harith, escapeList, List.append_assoc, parseStringBody_escChar, ih]
    rfl

theorem parseStringBody_escape_of_lt (s : List Char) (rest : List Char) (f : Nat)
    (hf : s.length < f) :
    parseStringBody f (escapeList s ++ '"' :: rest) = some (s, rest) := by
  obtain ⟨g, rfl⟩ : ∃ g, f = g + s.length + 1 := ⟨f - s.length - 1, by omega⟩
  exact parseStringBody_escape s g rest

set_option maxHeartbeats 1000000 in
theorem one_le_length_escChar (c : Char) : 1 ≤ (escChar c).length := by
  unfold escChar
  split_ifs <;> simp

theorem length_le_escapeList (s : List Char) : s.length ≤ (escapeList s).length := by
  induction s with
  | nil => simp [escapeList]
  | cons c cs ih =>
    have h1 := one_le_length_escChar c
    simp only [escapeList, List.length_append, List.length_cons]
    omega

theorem parseStringBody_key (kcs : List Char) (tail : List Char) (f : Nat)
    (hesc : escapeList kcs = kcs) (hf : kcs.length < f) :
    parseStringBody f (kcs ++ '"' :: tail) = some (kcs, tail) := by
  have h := parseStringBody_escape_of_lt kcs tail f hf
  rwa [hesc] at h

theorem skipWs_cons_ws (c : Char) (h : isJsonWs c = true) (l : List Char) :
    skipWs (c :: l) = skipWs l := by
  simp [skipWs, List.dropWhile, h]

theorem skipWs_cons_not (c : Char) (h : isJsonWs c = false) (l : List Char) :
    skipWs (c :: l) = c :: l := by
  simp [skipWs, List.dropWhile, h]

theorem parseValue_strVal (f : Nat) (s : List Char) (rest : List Char) :
    parseValue (f + 1) (' ' :: '"' :: (escapeList s ++ '"' :: rest)) =
      some (.str (String.mk s), rest) := by
  have hX : s.length < (escapeList s ++ '"' :: rest).length + 1 := by
    have := length_le_escapeList s
    simp only [List.length_append, List.length_cons]
    omega
  have hps := parseStringBody_escape_of_lt s rest ((escapeList s ++ '"' :: rest).length + 1) hX
  simp only [List.length_append, List.length_cons] at hps
  simp only [parseValue]
  rw [skipWs_cons_ws ' ' (by decide), skipWs_cons_not '"' (by decide)]
  simp [hps]

theorem parseMembers_provider (f : Nat) (pdata : List Char) :
    parseMembers (f + 2)
      ('"' :: 'p' :: 'r' :: 'o' :: 'v' :: 'i' :: 'd' :: 'e' :: 'r' :: '"' :: ':' :: ' ' :: '"' ::
        (escapeList pdata ++ ['"', '\n', '}'])) =
      some ([("provider", .str (String.mk pdata))], []) := by
  have hkey := parseStringBody_key ['p','r','o','v','i','d','e','r']
      (':' :: ' ' :: '"' :: (escapeList pdata ++ ['"', '\n', '}']))
      (('p' :: 'r' :: 'o' :: 'v' :: 'i' :: 'd' :: 'e' :: 'r' :: '"' :: ':' :: ' ' :: '"' ::
        (escapeList pdata ++ ['"', '\n', '}'])).length + 1)
      (by decide)
      (by simp only [List.length_cons, List.length_append]; omega)
  simp only [List.cons_append, List.nil_append] at hkey
  simp only [parseMembers]
  rw [hkey]
  simp [skipWs_cons_ws, skipWs_cons_not, isJsonWs, parseValue_strVal,
    show String.mk ['p','r','o','v','i','d','e','r'] = "provider" from by decide]

theorem parseMembers_model (f : Nat) (mdata pdata : List Char) :
    parseMembers (f + 3)
      ('"' :: 'm' :: 'o' :: 'd' :: 'e' :: 'l' :: '"' :: ':' :: ' ' :: '"' ::
        (escapeList mdata ++
          ('"' :: ',' :: '\n' :: ' ' :: ' ' :: '"' :: 'p' :: 'r' :: 'o' :: 'v' :: 'i' ::
            'd' :: 'e' :: 'r' :: '"' :: ':' :: ' ' :: '"' ::
            (escapeList pdata ++ ['"', '\n', '}'])))) =
      some ([("model", .str (String.mk mdata)), ("provider", .str (String.mk pdata))], []) := by
  have hA : parseValue (f + 2)
      (' ' :: '"' ::
        (escapeList mdata ++
          '"' :: ',' :: '\n' :: ' ' :: ' ' :: '"' :: 'p' :: 'r' :: 'o' :: 'v' :: 'i' ::
            'd' :: 'e' :: 'r' :: '"' :: ':' :: ' ' :: '"' ::
            (escapeList pdata ++ ['"', '\n', '}']))) =
      some (.str (String.mk mdata),
        ',' :: '\n' :: ' ' :: ' ' :: '"' :: 'p' :: 'r' :: 'o' :: 'v' :: 'i' ::
          'd' :: 'e' :: 'r' :: '"' :: ':' :: ' ' :: '"' ::
          (escapeList pdata ++ ['"', '\n', '}'])) :=
    parseValue_strVal (f + 1) mdata
      (',' :: '\n' :: ' ' :: ' ' :: '"' :: 'p' :: 'r' :: 'o' :: 'v' :: 'i' ::
        'd' :: 'e' :: 'r' :: '"' :: ':' :: ' ' :: '"' ::
        (escapeList pdata ++ ['"', '\n', '}']))
  have hB := parseMembers_provider f pdata
  have hkey := parseStringBody_key ['m','o','d','e','l']
      (':' :: ' ' :: '"' ::
        (escapeList mdata ++
          ('"' :: ',' :: '\n' :: ' ' :: ' ' :: '"' :: 'p' :: 'r' :: 'o' :: 'v' :: 'i' ::
            'd' :: 'e' :: 'r' :: '"' :: ':' :: ' ' :: '"' ::
            (escapeList pdata ++ ['"', '\n', '}']))))
      (('m' :: 'o' :: 'd' :: 'e' :: 'l' :: '"' :: ':' :: ' ' :: '"' ::
        (escapeList mdata ++
          ('"' :: ',' :: '\n' :: ' ' :: ' ' :: '"' :: 'p' :: 'r' :: 'o' :: 'v' :: 'i' ::
            'd' :: 'e' :: 'r' :: '"' :: ':' :: ' ' :: '"' ::
            (escapeList pdata ++ ['"', '\n', '}'])))).length + 1)
      (by decide)
      (by simp only [List.length_cons, List.length_append]; omega)
  simp only [List.cons_append, List.nil_append] at hkey
  rw [show f + 3 = Nat.succ (f + 2) from rfl, parseMembers]
  rw [hkey]
  simp [hA, hB, skipWs_cons_ws, skipWs_cons_not, isJsonWs,
    show String.mk ['m','o','d','e','l'] = "model" from by decide]

theorem parseValue_marshal (f : Nat) (c : Config) :
    parseValue (f + 4) (marshalConfigChars c) = some (configJson c, []) := by
  have hC := parseMembers_model f c.model.data c.provider.data
  simp only [marshalConfigChars, List.cons_append, List.nil_append]
  rw [show f + 4 = Nat.succ (f + 3) from rfl, parseValue]
  simp [hC, skipWs_cons_ws, skipWs_cons_not, isJsonWs, configJson,
    show String.mk c.model.data = c.model from rfl,
    show String.mk c.provider.data = c.provider from rfl]

theorem unmarshalConfig_marshal (c : Config) :
    unmarshalConfig (marshalConfigChars c) = some c := by
  unfold unmarshalConfig parseJsonChars
  have hlen : 3 ≤ (marshalConfigChars c).length := by
    simp [marshalConfigChars, List.length_append]
  obtain ⟨g, hg⟩ : ∃ g, (marshalConfigChars c).length + 1 = g + 4 :=
    ⟨(marshalConfigChars c).length - 3, by omega⟩
  rw [hg, parseValue_marshal]
  have hdec : decodeConfig (configJson c) = some c := by
    simp [configJson, decodeConfig, decodeConfigMember, decodeStringField,
      show jsonNameEq "model" "model" = true from by decide,
      show jsonNameEq "provider" "model" = false from by decide,
      show jsonNameEq "provider" "provider" = true from by decide]
  simp [skipWs, hdec]

/-- Claim C8: for every configuration record, `saveConfig` followed by
`loadConfig` yields the record that was saved (JSON marshal and unmarshal
round-trip, including string escaping). -/
theorem claimC8 :
    ∀ (w : World) (c : Config), loadConfig (saveConfig w c) = .ok c := by
  intro w c
  simp [loadConfig, saveConfig, unmarshalConfig_marshal]
